import Mathlib

/-!
Verification of the JSON decode module (`src/decode.rs`).

The module under verification is the value-construction layer: a serde
visitor (`JsonValue`) that consumes events from the external `serde_json`
streaming parser and builds host (Python) values, plus the top-level
`deserialize` entry point that drives the parser, runs the trailing-content
check (`deserializer.end()`), and wraps errors into a `JSONDecodeError`
carrying `(message, "", 0)`.

The external collaborators (the `serde_json` tokenizer and the CPython
object system) are not part of the repository source; they are modelled
from the contract the specification gives for them (section 4.2 number
classification, section 6 host capability contract) and are marked
`Modelled from the spec:` below.  The visitor methods and `deserialize`
are translated directly from `src/decode.rs`.
-/

namespace Decode

/-- The host dynamic value tree built by the decoder (the Python object
graph reachable from the returned `*mut PyObject`).  Signed and unsigned
64-bit integer events both construct a Python `int` (`value.into_object`),
so both map to the single `int` variant carrying the exact integer.
A Python `float` is built from the parsed literal; IEEE-754 evaluation of
the literal text is outside this embedding, so the `float` variant carries
the numeric literal text itself. -/
inductive PyObj : Type where
  | none : PyObj
  | bool (b : Bool) : PyObj
  | int (v : Int) : PyObj
  | float (lit : String) : PyObj
  | str (s : String) : PyObj
  | list (elems : List PyObj) : PyObj
  | dict (entries : List (String × PyObj)) : PyObj
  deriving Repr

/-- The error raised by `deserialize`: `JSONDecodeError::py_err((msg, "", 0))`
carries the message text of the parser, a filename and a position. -/
structure DecodeError : Type where
  msg : String
  filename : String
  pos : Nat
  deriving Repr, DecidableEq

/-! ### Visitor methods, translated from `impl Visitor for JsonValue`
(`src/decode.rs` lines 59-103).  Each scalar method unconditionally
returns `Ok`: the error type is an arbitrary `ε` and the error
constructor is never used. -/

/-- `visit_unit`: `Ok(Py_None())`. -/
def visit_unit {ε : Type} : Except ε PyObj := .ok .none

/-- `visit_bool`: `Ok(value.into_object(py).into_ptr())`. -/
def visit_bool {ε : Type} (value : Bool) : Except ε PyObj := .ok (.bool value)

/-- `visit_i64`: `Ok(value.into_object(py).into_ptr())` — a Python int of
exactly `value`. -/
def visit_i64 {ε : Type} (value : Int) : Except ε PyObj := .ok (.int value)

/-- `visit_u64`: `Ok(value.into_object(py).into_ptr())` — a Python int of
exactly `value`. -/
def visit_u64 {ε : Type} (value : Nat) : Except ε PyObj := .ok (.int value)

/-- `visit_f64`: `Ok(PyFloat::new(py, value).into_ptr())`.  The f64 payload
is represented by the literal text it was parsed from. -/
def visit_f64 {ε : Type} (value : String) : Except ε PyObj := .ok (.float value)

/-- `visit_borrowed_str`: `Ok(PyString::new(py, value).into_ptr())`. -/
def visit_borrowed_str {ε : Type} (value : String) : Except ε PyObj := .ok (.str value)

/-- `visit_str`: `Ok(PyString::new(py, value).into_ptr())` — same body as
`visit_borrowed_str`. -/
def visit_str {ε : Type} (value : String) : Except ε PyObj := .ok (.str value)

/-! ### Host dict capability -/

/-- Modelled from the spec: the host `map-insert(key, value)` capability
(`PyDict_SetItem` on the insertion-order-preserving CPython dict):
if the key is present its value is replaced in place (position kept),
otherwise the entry is appended at the end. -/
def dictSetItem : List (String × PyObj) → String → PyObj → List (String × PyObj)
  | [], k, v => [(k, v)]
  | (k', v') :: rest, k, v =>
      if k' = k then (k', v) :: rest else (k', v') :: dictSetItem rest k v

/-- Modelled from the spec: the host map lookup on the ordered dict —
first (and, keys being unique, only) binding of the key. -/
def dictLookup : List (String × PyObj) → String → Option PyObj
  | [], _ => Option.none
  | (k', v') :: rest, k => if k' = k then some v' else dictLookup rest k

/-- The map loop of the visitor over already-decoded entries: start from the
fresh empty dict (`PyDict::new`) and `PyDict_SetItem` each `(key, value)`
pair in arrival order (`src/decode.rs` lines 124-131). -/
def buildEntries (entries : List (String × PyObj)) : List (String × PyObj) :=
  entries.foldl (fun d kv => dictSetItem d kv.1 kv.2) []

/-! ### The event source (spec-modelled tokenizer)

Modelled from the spec: the lexical JSON parser is an external
collaborator; it is reproduced here from its output contract (section 1,
section 4.2, glossary): it yields scalar events, sequence and map
events, classified numbers, or a syntax error with a textual message. -/

/-- JSON whitespace accepted between tokens. -/
def isWs (c : Char) : Bool :=
  c = ' ' || c = '\t' || c = '\n' || c = '\r'

/-- Modelled from the spec: skip insignificant whitespace. -/
def skipWs : List Char → List Char
  | [] => []
  | c :: rest => if isWs c then skipWs rest else c :: rest

/-- Modelled from the spec: the tokenizer classification of a numeric
literal (section 4.2): an integer literal fitting signed 64-bit is tagged
signed; a non-negative integer fitting unsigned but not signed 64-bit is
tagged unsigned; anything with a fraction or exponent, or out of 64-bit
range, requires floating point. -/
inductive NumClass : Type where
  | i64 (v : Int) : NumClass
  | u64 (v : Nat) : NumClass
  | f64 (lit : String) : NumClass
  deriving Repr, DecidableEq

/-- Modelled from the spec: classify a numeric literal with sign `neg`,
integer magnitude `m` (meaningful only when `hasFracExp = false`) and
source text `lit`. -/
def classifyNumber (neg : Bool) (m : Nat) (hasFracExp : Bool) (lit : String) : NumClass :=
  if hasFracExp then .f64 lit
  else
    let v : Int := if neg then -(m : Int) else (m : Int)
    if -(2 ^ 63) ≤ v ∧ v ≤ 2 ^ 63 - 1 then .i64 v
    else if 0 ≤ v ∧ v ≤ 2 ^ 64 - 1 then .u64 m
    else .f64 lit

/-- Dispatch a classified number event to the matching visitor method
(`visit_i64` / `visit_u64` / `visit_f64`). -/
def dispatchNum (c : NumClass) : Except String PyObj :=
  match c with
  | .i64 v => visit_i64 v
  | .u64 v => visit_u64 v
  | .f64 l => visit_f64 l

/-- Modelled from the spec: hexadecimal digit value. -/
def hexDigit (c : Char) : Except String Nat :=
  if '0' ≤ c ∧ c ≤ '9' then .ok (c.toNat - 48)
  else if 'a' ≤ c ∧ c ≤ 'f' then .ok (c.toNat - 87)
  else if 'A' ≤ c ∧ c ≤ 'F' then .ok (c.toNat - 55)
  else .error "invalid escape"

/-- Modelled from the spec: four hex digits of a unicode escape. -/
def hex4 (a b c d : Char) : Except String Nat := do
  let x ← hexDigit a
  let y ← hexDigit b
  let z ← hexDigit c
  let w ← hexDigit d
  pure (((x * 16 + y) * 16 + z) * 16 + w)

/-- Modelled from the spec: scan the body of a string literal after the
opening quote, decoding escapes; returns the decoded text, whether any
escape occurred (the zero-copy / owned split the tokenizer reports), and
the rest of the input.  The fuel argument strictly exceeds the input
length whenever called from `deserialize`. -/
def scanString : Nat → List Char → Bool → List Char → Except String (String × Bool × List Char)
  | 0, _, _, _ => .error "recursion limit exceeded"
  | _ + 1, _, _, [] => .error "EOF while parsing a string"
  | n + 1, acc, esc, c :: rest =>
      if c = '"' then .ok (String.mk acc.reverse, esc, rest)
      else if c = '\\' then
        match rest with
        | [] => .error "EOF while parsing a string"
        | e :: rest2 =>
          if e = '"' then scanString n ('"' :: acc) true rest2
          else if e = '\\' then scanString n ('\\' :: acc) true rest2
          else if e = '/' then scanString n ('/' :: acc) true rest2
          else if e = 'b' then scanString n ('\x08' :: acc) true rest2
          else if e = 'f' then scanString n ('\x0c' :: acc) true rest2
          else if e = 'n' then scanString n ('\n' :: acc) true rest2
          else if e = 'r' then scanString n ('\r' :: acc) true rest2
          else if e = 't' then scanString n ('\t' :: acc) true rest2
          else if e = 'u' then
            match rest2 with
            | h1 :: h2 :: h3 :: h4 :: rest3 => do
                let u ← hex4 h1 h2 h3 h4
                if 0xD800 ≤ u ∧ u ≤ 0xDBFF then
                  match rest3 with
                  | '\\' :: 'u' :: g1 :: g2 :: g3 :: g4 :: rest4 => do
                      let w ← hex4 g1 g2 g3 g4
                      if 0xDC00 ≤ w ∧ w ≤ 0xDFFF then
                        scanString n
                          (Char.ofNat (0x10000 + (u - 0xD800) * 0x400 + (w - 0xDC00)) :: acc)
                          true rest4
                      else .error "unexpected end of hex escape"
                  | _ => .error "unexpected end of hex escape"
                else if 0xDC00 ≤ u ∧ u ≤ 0xDFFF then
                  .error "lone leading surrogate in hex escape"
                else scanString n (Char.ofNat u :: acc) true rest3
            | _ => .error "invalid escape"
          else .error "invalid escape"
      else if c.toNat < 0x20 then .error "control character in string"
      else scanString n (c :: acc) esc rest

/-- Modelled from the spec: take a maximal run of decimal digits. -/
def takeDigits : List Char → (List Char × List Char)
  | [] => ([], [])
  | c :: rest =>
      if c.isDigit then
        let (ds, r) := takeDigits rest
        (c :: ds, r)
      else ([], c :: rest)

/-- Modelled from the spec: numeric value of a digit run. -/
def digitsToNat (acc : Nat) : List Char → Nat
  | [] => acc
  | c :: rest => digitsToNat (acc * 10 + (c.toNat - 48)) rest

/-- Modelled from the spec: the integer part of a number literal (a single
`0`, or a nonzero digit followed by digits). -/
def scanIntPart : List Char → Except String (List Char × List Char)
  | [] => .error "EOF while parsing a value"
  | c :: rest =>
      if c = '0' then
        match rest with
        | d :: _ => if d.isDigit then .error "invalid number" else .ok (['0'], rest)
        | [] => .ok (['0'], [])
      else if c.isDigit then
        let (ds, r) := takeDigits rest
        .ok (c :: ds, r)
      else .error "invalid number"

/-- Modelled from the spec: optional fraction part; returns its text
(including the dot), whether it was present, and the rest. -/
def scanFrac : List Char → Except String (List Char × Bool × List Char)
  | '.' :: r =>
      match takeDigits r with
      | ([], _) => .error "invalid number"
      | (ds, r2) => .ok ('.' :: ds, true, r2)
  | s => .ok ([], false, s)

/-- Modelled from the spec: optional exponent part; returns its text,
whether it was present, and the rest. -/
def scanExp : List Char → Except String (List Char × Bool × List Char)
  | c :: r =>
      if c = 'e' ∨ c = 'E' then
        let (sgn, r2) :=
          match r with
          | '+' :: rr => (['+'], rr)
          | '-' :: rr => (['-'], rr)
          | _ => ([], r)
        match takeDigits r2 with
        | ([], _) => .error "invalid number"
        | (ds, r3) => .ok (c :: (sgn ++ ds), true, r3)
      else .ok ([], false, c :: r)
  | [] => .ok ([], false, [])

/-- Modelled from the spec: scan a complete number literal and classify it
per section 4.2. -/
def scanNumber (s : List Char) : Except String (NumClass × List Char) := do
  let (neg, s1) :=
    match s with
    | '-' :: r => (true, r)
    | _ => (false, s)
  let (intDs, s2) ← scanIntPart s1
  let (fracDs, hasFrac, s3) ← scanFrac s2
  let (expDs, hasExp, s4) ← scanExp s3
  let lit := String.mk ((if neg then ['-'] else []) ++ intDs ++ fracDs ++ expDs)
  pure (classifyNumber neg (digitsToNat 0 intDs) (hasFrac || hasExp) lit, s4)

/-! ### The driver

`seed.deserialize(&mut deserializer)` drives the tokenizer and invokes the
visitor at each event.  `parseValue` is the event source pulling one value
and handing the event to the visitor; `parseArrayRest` is the
`SeqAccess` loop of `visit_seq` (`src/decode.rs` lines 109-112): it pulls
elements into the growable buffer `acc`, and only after the closing
bracket materializes the host list; `parseObjectRest` is the `MapAccess`
loop of `visit_map` (lines 124-131): keys are decoded strictly as strings
and each pair is installed with `dictSetItem` as it arrives.  The fuel
argument only bounds recursion; `deserialize` passes more than enough for
its input. -/

mutual

def parseValue : Nat → List Char → Except String (PyObj × List Char)
  | 0, _ => .error "recursion limit exceeded"
  | n + 1, s =>
    match skipWs s with
    | [] => .error "EOF while parsing a value"
    | 'n' :: 'u' :: 'l' :: 'l' :: rest =>
        (visit_unit).map (fun v => (v, rest))
    | 't' :: 'r' :: 'u' :: 'e' :: rest =>
        (visit_bool true).map (fun v => (v, rest))
    | 'f' :: 'a' :: 'l' :: 's' :: 'e' :: rest =>
        (visit_bool false).map (fun v => (v, rest))
    | '"' :: rest => do
        let (txt, escaped, r) ← scanString (n + 1) [] false rest
        let v ← if escaped then visit_str txt else visit_borrowed_str txt
        pure (v, r)
    | '[' :: rest =>
        (match skipWs rest with
         | ']' :: r => .ok (PyObj.list [], r)
         | r => parseArrayRest n [] r)
    | '{' :: rest =>
        (match skipWs rest with
         | '}' :: r => .ok (PyObj.dict [], r)
         | r => parseObjectRest n [] r)
    | c :: rest =>
        if c = '-' ∨ c.isDigit then do
          let (nc, r) ← scanNumber (c :: rest)
          let v ← dispatchNum nc
          pure (v, r)
        else .error "expected value"

def parseArrayRest : Nat → List PyObj → List Char → Except String (PyObj × List Char)
  | 0, _, _ => .error "recursion limit exceeded"
  | n + 1, acc, s => do
    let (elem, s1) ← parseValue n s
    match skipWs s1 with
    | ',' :: s2 => parseArrayRest n (acc ++ [elem]) s2
    | ']' :: s2 => .ok (PyObj.list (acc ++ [elem]), s2)
    | _ => .error "expected comma or closing bracket"

def parseObjectRest : Nat → List (String × PyObj) → List Char →
    Except String (PyObj × List Char)
  | 0, _, _ => .error "recursion limit exceeded"
  | n + 1, dict, s =>
    match skipWs s with
    | [] => .error "key must be a string"
    | c :: rest =>
      if c = '"' then do
        let (key, _, s1) ← scanString (n + 1) [] false rest
        match skipWs s1 with
        | ':' :: s2 => do
            let (value, s3) ← parseValue n s2
            let dict2 := dictSetItem dict key value
            match skipWs s3 with
            | ',' :: s4 => parseObjectRest n dict2 s4
            | '}' :: s4 => .ok (PyObj.dict dict2, s4)
            | _ => .error "expected comma or closing brace"
        | _ => .error "expected colon"
      else .error "key must be a string"

end

/-- `deserializer.end()` (`src/decode.rs` line 20): after the root value,
only whitespace may remain. -/
def deserializerEnd (rest : List Char) : Except String Unit :=
  match skipWs rest with
  | [] => .ok ()
  | _ => .error "trailing characters"

/-- Fuel passed to the recursive descent: strictly more than any
recursion the input can force. -/
def fuelFor (data : String) : Nat := 2 * data.length + 2

/-- `deserialize` (`src/decode.rs` lines 14-28): drive the parser seeded
with the visitor; on success run the trailing-content check; each failure
is wrapped as `JSONDecodeError::py_err((e.to_string(), "", 0))`. -/
def deserialize (data : String) : Except DecodeError PyObj :=
  match parseValue (fuelFor data) data.data with
  | .ok (py_ptr, rest) =>
      match deserializerEnd rest with
      | .error e => .error ⟨e, "", 0⟩
      | .ok _ => .ok py_ptr
  | .error e => .error ⟨e, "", 0⟩

/-- A sequence of decode calls, used to state that the result of each
call depends only on its own input. -/
def decodeAll (inputs : List String) : List (Except DecodeError PyObj) :=
  inputs.map deserialize

/-! ### Specification-side helpers

These describe expected outcomes independently of the dict operations,
so that the dict theorems compare two separately-stated functions. -/

/-- The keys of a dict, in iteration order. -/
def keysOf (d : List (String × PyObj)) : List String := d.map Prod.fst

/-- Document-order key sequence: an arriving key already seen keeps its
position, a new key goes to the end. -/
def insKey (ks : List String) (k : String) : List String :=
  if k ∈ ks then ks else ks ++ [k]

/-- First-occurrence (insertion) order of a key sequence, starting from
already-present keys `ks`. -/
def insOrder (ks : List String) (l : List String) : List String :=
  l.foldl insKey ks

/-- The value of the last occurrence of a key in a raw entry sequence. -/
def lastLookup : List (String × PyObj) → String → Option PyObj
  | [], _ => Option.none
  | (k0, v0) :: rest, k =>
      match lastLookup rest k with
      | some v => some v
      | none => if k0 = k then some v0 else Option.none

/-! ### Dict lemmas -/

theorem dictLookup_setItem (d : List (String × PyObj)) (k0 k : String) (v0 : PyObj) :
    dictLookup (dictSetItem d k0 v0) k = if k0 = k then some v0 else dictLookup d k := by
  induction d with
  | nil => simp [dictSetItem, dictLookup]
  | cons hd tl ih =>
    obtain ⟨k1, v1⟩ := hd
    by_cases h1 : k1 = k0
    · subst h1
      by_cases h2 : k1 = k <;> simp [dictSetItem, dictLookup, h2]
    · by_cases h2 : k1 = k
      · subst h2
        have h3 : ¬(k0 = k1) := fun h => h1 h.symm
        simp [dictSetItem, dictLookup, h1, h3]
      · simp [dictSetItem, dictLookup, h1, h2, ih]

theorem keysOf_setItem (d : List (String × PyObj)) (k : String) (v : PyObj) :
    keysOf (dictSetItem d k v) = insKey (keysOf d) k := by
  induction d with
  | nil => simp [dictSetItem, keysOf, insKey]
  | cons hd tl ih =>
    obtain ⟨k1, v1⟩ := hd
    by_cases h1 : k1 = k
    · subst h1
      simp [dictSetItem, keysOf, insKey]
    · have hstep : dictSetItem ((k1, v1) :: tl) k v = (k1, v1) :: dictSetItem tl k v := by
        simp [dictSetItem, h1]
      have hkeys : keysOf ((k1, v1) :: dictSetItem tl k v) = k1 :: keysOf (dictSetItem tl k v) := rfl
      rw [hstep, hkeys, ih, insKey, insKey]
      by_cases h2 : k ∈ keysOf tl
      · have hm : k ∈ keysOf ((k1, v1) :: tl) := List.mem_cons_of_mem _ h2
        rw [if_pos h2, if_pos hm]
        rfl
      · have hm : k ∉ keysOf ((k1, v1) :: tl) := by
          intro hc
          rcases List.mem_cons.mp hc with h | h
          · exact h1 h.symm
          · exact h2 h
        rw [if_neg h2, if_neg hm]
        rfl

theorem nodup_keysOf_setItem (d : List (String × PyObj)) (k : String) (v : PyObj)
    (h : (keysOf d).Nodup) : (keysOf (dictSetItem d k v)).Nodup := by
  rw [keysOf_setItem, insKey]
  split
  · exact h
  · next hmem =>
      rw [List.nodup_append]
      exact ⟨h, List.nodup_singleton k, fun a ha hb => by
        simp at hb; subst hb; exact hmem ha⟩

/-- The dict accumulated by the map loop: its keys are the document-order
first occurrences of the arriving keys, continuing from the keys already
present. -/
theorem keysOf_foldl (entries : List (String × PyObj)) :
    ∀ d : List (String × PyObj),
      keysOf (entries.foldl (fun dd kv => dictSetItem dd kv.1 kv.2) d)
        = insOrder (keysOf d) (entries.map Prod.fst) := by
  induction entries with
  | nil => intro d; rfl
  | cons e rest ih =>
    intro d
    obtain ⟨k, v⟩ := e
    rw [List.foldl_cons, ih, keysOf_setItem]
    rfl

/-- The dict accumulated by the map loop binds each key to the value of
its last occurrence (falling back to the pre-existing binding). -/
theorem dictLookup_foldl (entries : List (String × PyObj)) :
    ∀ (d : List (String × PyObj)) (k : String),
      dictLookup (entries.foldl (fun dd kv => dictSetItem dd kv.1 kv.2) d) k
        = match lastLookup entries k with
          | some v => some v
          | none => dictLookup d k := by
  induction entries with
  | nil => intro d k; rfl
  | cons e rest ih =>
    intro d k
    obtain ⟨k0, v0⟩ := e
    rw [List.foldl_cons, ih]
    cases hl : lastLookup rest k with
    | none =>
        by_cases h : k0 = k <;> simp [lastLookup, hl, dictLookup_setItem, h]
    | some v => simp [lastLookup, hl]

theorem nodup_keysOf_foldl (entries : List (String × PyObj)) :
    ∀ d : List (String × PyObj), (keysOf d).Nodup →
      (keysOf (entries.foldl (fun dd kv => dictSetItem dd kv.1 kv.2) d)).Nodup := by
  induction entries with
  | nil => intro d h; exact h
  | cons e rest ih =>
    intro d h
    rw [List.foldl_cons]
    exact ih _ (nodup_keysOf_setItem d e.1 e.2 h)

/-! ### Driver lemmas -/

theorem skipWs_allWs (ws : List Char) (h : ∀ c ∈ ws, isWs c) : skipWs ws = [] := by
  induction ws with
  | nil => rfl
  | cons c rest ih =>
    have hc : isWs c := h c (List.mem_cons_self c rest)
    simp [skipWs, hc, ih fun d hd => h d (List.mem_cons_of_mem _ hd)]

/-- A successful decode is exactly a successful root parse followed by a
remainder that is nothing but whitespace. -/
theorem deserialize_ok_rest (s : String) (v : PyObj) (h : deserialize s = .ok v) :
    ∃ rest, parseValue (fuelFor s) s.data = .ok (v, rest) ∧ skipWs rest = [] := by
  unfold deserialize at h
  cases hp : parseValue (fuelFor s) s.data with
  | error e => rw [hp] at h; exact absurd h (by simp)
  | ok p =>
    obtain ⟨w, rest⟩ := p
    rw [hp] at h
    replace h : (match deserializerEnd rest with
        | .error e => (.error ⟨e, "", 0⟩ : Except DecodeError PyObj)
        | .ok _ => .ok w) = .ok v := h
    unfold deserializerEnd at h
    cases hw : skipWs rest with
    | cons c cs => rw [hw] at h; exact absurd h (by simp)
    | nil =>
      rw [hw] at h
      simp only [Except.ok.injEq] at h
      exact ⟨rest, by rw [h], hw⟩

theorem deserialize_parse_error (s : String) (e : String)
    (h : parseValue (fuelFor s) s.data = .error e) :
    deserialize s = .error ⟨e, "", 0⟩ := by
  unfold deserialize
  rw [h]

theorem deserialize_end_error (s : String) (v : PyObj) (rest : List Char) (e : String)
    (h1 : parseValue (fuelFor s) s.data = .ok (v, rest))
    (h2 : deserializerEnd rest = .error e) :
    deserialize s = .error ⟨e, "", 0⟩ := by
  unfold deserialize
  rw [h1]
  show (match deserializerEnd rest with
      | .error e => (.error ⟨e, "", 0⟩ : Except DecodeError PyObj)
      | .ok _ => .ok v) = _
  rw [h2]

theorem deserialize_error_fields (s : String) (err : DecodeError)
    (h : deserialize s = .error err) : err.filename = "" ∧ err.pos = 0 := by
  unfold deserialize at h
  cases hp : parseValue (fuelFor s) s.data with
  | error e =>
    rw [hp] at h
    simp only [Except.error.injEq] at h
    rw [← h]
    exact ⟨rfl, rfl⟩
  | ok p =>
    obtain ⟨w, rest⟩ := p
    rw [hp] at h
    replace h : (match deserializerEnd rest with
        | .error e => (.error ⟨e, "", 0⟩ : Except DecodeError PyObj)
        | .ok _ => .ok w) = .error err := h
    cases he : deserializerEnd rest with
    | error e =>
      rw [he] at h
      simp only [Except.error.injEq] at h
      rw [← h]
      exact ⟨rfl, rfl⟩
    | ok u => rw [he] at h; exact absurd h (by simp)

/-- The element loop of `visit_seq`: a failed element parse aborts the
loop with the same error (no list is built). -/
theorem parseArrayRest_elem_error (n : Nat) (acc : List PyObj) (s : List Char) (e : String)
    (h : parseValue n s = .error e) : parseArrayRest (n + 1) acc s = .error e := by
  simp [parseArrayRest, h, Bind.bind, Except.bind]

/-- The element loop of `visit_seq` only ever returns a complete list:
whatever it returns extends the accumulated prefix with fully built
elements. -/
theorem parseArrayRest_ok_shape (n : Nat) :
    ∀ (acc : List PyObj) (s : List Char) (w : PyObj) (rest : List Char),
      parseArrayRest n acc s = .ok (w, rest) →
      ∃ elems, w = PyObj.list (acc ++ elems) := by
  induction n with
  | zero => intro acc s w rest h; exact absurd h (by simp [parseArrayRest])
  | succ n ih =>
    intro acc s w rest h
    rw [parseArrayRest] at h
    cases hv : parseValue n s with
    | error e => rw [hv] at h; exact absurd h (by simp [Bind.bind, Except.bind])
    | ok p =>
      obtain ⟨elem, s1⟩ := p
      rw [hv] at h
      simp only [Bind.bind, Except.bind] at h
      split at h
      · rcases ih _ _ _ _ h with ⟨es, hes⟩
        exact ⟨elem :: es, by rw [hes]; simp⟩
      · simp only [Except.ok.injEq, Prod.mk.injEq] at h
        exact ⟨[elem], h.1.symm⟩
      · exact absurd h (by simp)

/-- The entry loop of `visit_map` only ever returns a complete dict: the
result is the accumulated dict extended, entry by entry with
`dictSetItem`, by fully built pairs. -/
theorem parseObjectRest_ok_shape (n : Nat) :
    ∀ (d : List (String × PyObj)) (s : List Char) (w : PyObj) (rest : List Char),
      parseObjectRest n d s = .ok (w, rest) →
      ∃ entries : List (String × PyObj), w = PyObj.dict
        (entries.foldl (fun dd kv => dictSetItem dd kv.1 kv.2) d) := by
  induction n with
  | zero => intro d s w rest h; exact absurd h (by simp [parseObjectRest])
  | succ n ih =>
    intro d s w rest h
    rw [parseObjectRest] at h
    split at h
    next => exact absurd h (by simp)
    next x cc rest1 heq =>
      by_cases hc : cc = '"'
      · rw [if_pos hc] at h
        cases hsc : scanString (n + 1) [] false rest1 with
        | error e => rw [hsc] at h; exact absurd h (by simp [Bind.bind, Except.bind])
        | ok p =>
          obtain ⟨key, esc, s1⟩ := p
          rw [hsc] at h
          simp only [Bind.bind, Except.bind] at h
          split at h
          · rename_i x2 s2 heq2
            cases hv : parseValue n s2 with
            | error e => rw [hv] at h; exact absurd h (by simp)
            | ok q =>
              obtain ⟨value, s3⟩ := q
              rw [hv] at h
              simp only at h
              split at h
              · rcases ih _ _ _ _ h with ⟨es, hes⟩
                exact ⟨(key, value) :: es, by rw [hes]; simp⟩
              · simp only [Except.ok.injEq, Prod.mk.injEq] at h
                exact ⟨[(key, value)], h.1.symm⟩
              · exact absurd h (by simp)
          · exact absurd h (by simp)
      · rw [if_neg hc] at h
        exact absurd h (by simp)

/-- Parsing an empty object consumes exactly its two braces. -/
theorem parseValue_empty_obj (n : Nat) (ws : List Char) :
    parseValue (n + 1) ('{' :: '}' :: ws) = .ok (.dict [], ws) := rfl

/-- The result at position `pre.length` of a call sequence is the decode
of the input at that position. -/
theorem decodeAll_get (pre post : List String) (s : String) :
    (decodeAll (pre ++ s :: post)).get? pre.length = some (deserialize s) := by
  induction pre with
  | nil => rfl
  | cons p rest ih =>
    simpa only [List.cons_append, decodeAll, List.map_cons, List.length_cons,
      List.get?_cons_succ] using ih

/-! ### Claim theorems -/

/-- Claim C1 — number classification: the maximum signed 64-bit literal is
classified as a signed integer event and decodes to exactly that integer;
the maximum unsigned 64-bit literal is classified as an unsigned integer
event (it exceeds the signed range) and decodes exactly; literals with a
fraction or exponent decode to float values; and every integer literal
fitting 64 bits is dispatched to a host integer of exactly the literal
value, with no narrowing or widening. -/
theorem c1_number_classification :
    (deserialize "9223372036854775807" = .ok (.int 9223372036854775807)
      ∧ (9223372036854775807 : Int) = 2 ^ 63 - 1
      ∧ scanNumber "9223372036854775807".data = .ok (.i64 9223372036854775807, []))
  ∧ (deserialize "18446744073709551615" = .ok (.int 18446744073709551615)
      ∧ (18446744073709551615 : Nat) = 2 ^ 64 - 1
      ∧ scanNumber "18446744073709551615".data = .ok (.u64 18446744073709551615, []))
  ∧ deserialize "1.5" = .ok (.float "1.5")
  ∧ deserialize "1e10" = .ok (.float "1e10")
  ∧ (∀ (neg : Bool) (m : Nat) (lit : String),
      (if neg then m ≤ 2 ^ 63 else m < 2 ^ 64) →
      dispatchNum (classifyNumber neg m false lit)
        = .ok (.int (if neg then -(m : Int) else (m : Int)))) := by
  refine ⟨⟨rfl, by norm_num, rfl⟩, ⟨rfl, by norm_num, rfl⟩, rfl, rfl, ?_⟩
  intro neg m lit h
  cases neg with
  | false =>
    replace h : m < 2 ^ 64 := h
    by_cases hs : (m : Int) ≤ 2 ^ 63 - 1
    · have hcls : classifyNumber false m false lit = .i64 (m : Int) := by
        show (if -(2 ^ 63 : Int) ≤ (m : Int) ∧ (m : Int) ≤ 2 ^ 63 - 1
              then NumClass.i64 (m : Int)
              else if (0 : Int) ≤ (m : Int) ∧ (m : Int) ≤ 2 ^ 64 - 1
                then NumClass.u64 m
                else NumClass.f64 lit) = NumClass.i64 (m : Int)
        rw [if_pos ⟨by omega, hs⟩]
      rw [hcls]
      rfl
    · have hcls : classifyNumber false m false lit = .u64 m := by
        show (if -(2 ^ 63 : Int) ≤ (m : Int) ∧ (m : Int) ≤ 2 ^ 63 - 1
              then NumClass.i64 (m : Int)
              else if (0 : Int) ≤ (m : Int) ∧ (m : Int) ≤ 2 ^ 64 - 1
                then NumClass.u64 m
                else NumClass.f64 lit) = NumClass.u64 m
        rw [if_neg (by omega), if_pos ⟨by omega, by omega⟩]
      rw [hcls]
      rfl
  | true =>
    replace h : m ≤ 2 ^ 63 := h
    have hcls : classifyNumber true m false lit = .i64 (-(m : Int)) := by
      show (if -(2 ^ 63 : Int) ≤ -(m : Int) ∧ -(m : Int) ≤ 2 ^ 63 - 1
            then NumClass.i64 (-(m : Int))
            else if (0 : Int) ≤ -(m : Int) ∧ -(m : Int) ≤ 2 ^ 64 - 1
              then NumClass.u64 m
              else NumClass.f64 lit) = NumClass.i64 (-(m : Int))
      rw [if_pos ⟨by omega, by omega⟩]
    rw [hcls]
    rfl

/-- Witness for claim C1: the general dispatch conjunct applied at the
concrete signed input 3 with negative sign. -/
theorem c1_number_classification_witness :
    dispatchNum (classifyNumber true 3 false "-3") = .ok (.int (-3)) := by
  have h := c1_number_classification.2.2.2.2 true 3 "-3" (by decide)
  simpa using h

/-- Claim C2 — order preservation: the keys of the dict built by the map
loop appear in first-occurrence (document) order of the arriving keys;
concretely, decoding a document with keys `b` then `a` yields a map
iterating `b` then `a` (not sorted), and a decoded list keeps the
document order of its elements. -/
theorem c2_order_preservation :
    (∀ entries : List (String × PyObj),
        keysOf (buildEntries entries) = insOrder [] (entries.map Prod.fst))
  ∧ deserialize "\x7b\"b\":1,\"a\":2\x7d" = .ok (.dict [("b", .int 1), ("a", .int 2)])
  ∧ deserialize "[2,1,3]" = .ok (.list [.int 2, .int 1, .int 3]) := by
  refine ⟨?_, rfl, rfl⟩
  intro entries
  exact keysOf_foldl entries []

/-- Claim C3 — duplicate-key policy: the dict built by the map loop has
pairwise-distinct keys, each bound to the value of its last occurrence in
document order; concretely, a document repeating key `a` with values 1
then 2 decodes to the single-entry map `a ↦ 2`. -/
theorem c3_duplicate_keys :
    (∀ entries : List (String × PyObj), (keysOf (buildEntries entries)).Nodup)
  ∧ (∀ (entries : List (String × PyObj)) (k : String),
        dictLookup (buildEntries entries) k = lastLookup entries k)
  ∧ deserialize "\x7b\"a\":1,\"a\":2\x7d" = .ok (.dict [("a", .int 2)]) := by
  refine ⟨?_, ?_, rfl⟩
  · intro entries
    exact nodup_keysOf_foldl entries [] (by simp [keysOf])
  · intro entries k
    have h := dictLookup_foldl entries [] k
    cases hl : lastLookup entries k <;> rw [hl] at h <;>
      simpa [buildEntries, dictLookup] using h

/-- Claim C4 — trailing-data check: a successful decode means the root
parse succeeded and the remaining input was nothing but whitespace (the
check runs after the root value is built); `{} extra` fails with the
trailing-characters decode error, while `{}` followed by whitespace only
succeeds. -/
theorem c4_trailing_data :
    (∀ (s : String) (v : PyObj), deserialize s = .ok v →
        ∃ rest, parseValue (fuelFor s) s.data = .ok (v, rest) ∧ skipWs rest = [])
  ∧ deserialize "{} extra" = .error ⟨"trailing characters", "", 0⟩
  ∧ (∀ ws : List Char, (∀ c ∈ ws, isWs c) →
        deserialize ⟨'{' :: '}' :: ws⟩ = .ok (.dict [])) := by
  refine ⟨deserialize_ok_rest, rfl, ?_⟩
  intro ws h
  show (match parseValue (fuelFor ⟨'{' :: '}' :: ws⟩) ('{' :: '}' :: ws) with
      | .ok (py_ptr, rest) =>
          match deserializerEnd rest with
          | .error e => (.error ⟨e, "", 0⟩ : Except DecodeError PyObj)
          | .ok _ => .ok py_ptr
      | .error e => .error ⟨e, "", 0⟩) = .ok (.dict [])
  have hfuel : fuelFor ⟨'{' :: '}' :: ws⟩ = (2 * ws.length + 5) + 1 := by
    show 2 * ('{' :: '}' :: ws).length + 2 = 2 * ws.length + 5 + 1
    simp only [List.length_cons]
    omega
  rw [hfuel, parseValue_empty_obj]
  show (match deserializerEnd ws with
      | .error e => (.error ⟨e, "", 0⟩ : Except DecodeError PyObj)
      | .ok _ => .ok (PyObj.dict [])) = .ok (.dict [])
  unfold deserializerEnd
  rw [skipWs_allWs ws h]

/-- Witness for claim C4: the success-shape conjunct applied at the
concrete input `{} ` and the whitespace-suffix conjunct applied at a
single-space suffix. -/
theorem c4_trailing_data_witness :
    (∃ rest, parseValue (fuelFor "{} ") "{} ".data = .ok (PyObj.dict [], rest)
        ∧ skipWs rest = [])
  ∧ deserialize ⟨'{' :: '}' :: [' ']⟩ = .ok (.dict []) :=
  ⟨c4_trailing_data.1 "{} " (.dict []) (by rfl),
   c4_trailing_data.2.2 [' '] (by decide)⟩

/-- Claim C5 — no partial success: a failing decode returns only the
error, never a value; a failed element parse aborts the sequence loop
with that same error before any list is built; and the sequence and map
loops only ever return complete containers holding all of their
successfully materialized children. -/
theorem c5_no_partial_success :
    (∀ (s : String) (e : DecodeError), deserialize s = .error e →
        ∀ v : PyObj, deserialize s ≠ .ok v)
  ∧ (∀ (n : Nat) (acc : List PyObj) (s : List Char) (e : String),
        parseValue n s = .error e → parseArrayRest (n + 1) acc s = .error e)
  ∧ (∀ (n : Nat) (acc : List PyObj) (s : List Char) (w : PyObj) (rest : List Char),
        parseArrayRest n acc s = .ok (w, rest) →
        ∃ elems : List PyObj, w = PyObj.list (acc ++ elems))
  ∧ (∀ (n : Nat) (d : List (String × PyObj)) (s : List Char) (w : PyObj) (rest : List Char),
        parseObjectRest n d s = .ok (w, rest) →
        ∃ entries : List (String × PyObj),
          w = PyObj.dict (entries.foldl (fun dd kv => dictSetItem dd kv.1 kv.2) d)) := by
  refine ⟨?_, parseArrayRest_elem_error, fun n => parseArrayRest_ok_shape n,
    fun n => parseObjectRest_ok_shape n⟩
  intro s e he v hv
  rw [he] at hv
  exact absurd hv (by simp)

/-- Witness for claim C5: each conjunct applied at a concrete input —
a document whose second element is malformed, the aborting element loop,
and complete one-element list and dict results. -/
theorem c5_no_partial_success_witness :
    deserialize "[1,tru]" ≠ .ok (PyObj.list [PyObj.int 1])
  ∧ parseArrayRest 2 [] ('t' :: 'r' :: 'u' :: []) = .error "expected value"
  ∧ (∃ elems : List PyObj,
      PyObj.list [PyObj.int 1, PyObj.int 2] = PyObj.list ([PyObj.int 1] ++ elems))
  ∧ (∃ entries : List (String × PyObj),
      PyObj.dict [("a", PyObj.int 1)]
        = PyObj.dict (entries.foldl (fun dd kv => dictSetItem dd kv.1 kv.2) [])) :=
  ⟨c5_no_partial_success.1 "[1,tru]" ⟨"expected value", "", 0⟩ (by rfl) _,
   c5_no_partial_success.2.1 1 [] ('t' :: 'r' :: 'u' :: []) "expected value" (by rfl),
   c5_no_partial_success.2.2.1 2 [PyObj.int 1] ('2' :: ']' :: [])
     (PyObj.list [PyObj.int 1, PyObj.int 2]) [] (by rfl),
   c5_no_partial_success.2.2.2 2 []
     ('"' :: 'a' :: '"' :: ':' :: '1' :: '}' :: [])
     (PyObj.dict [("a", PyObj.int 1)]) [] (by rfl)⟩

/-- Claim C6 — error shape: on the parse-failure path and on the
trailing-content path alike, the raised decode error carries the message
text of the underlying failure together with an empty filename and a zero
position; every error `deserialize` returns has empty filename and zero
position. -/
theorem c6_error_shape :
    (∀ (s : String) (e : String), parseValue (fuelFor s) s.data = .error e →
        deserialize s = .error ⟨e, "", 0⟩)
  ∧ (∀ (s : String) (v : PyObj) (rest : List Char) (e : String),
        parseValue (fuelFor s) s.data = .ok (v, rest) →
        deserializerEnd rest = .error e →
        deserialize s = .error ⟨e, "", 0⟩)
  ∧ (∀ (s : String) (err : DecodeError), deserialize s = .error err →
        err.filename = "" ∧ err.pos = 0) :=
  ⟨deserialize_parse_error, deserialize_end_error, deserialize_error_fields⟩

/-- Witness for claim C6: both error paths exercised at concrete failing
inputs. -/
theorem c6_error_shape_witness :
    deserialize "tru" = .error ⟨"expected value", "", 0⟩
  ∧ deserialize "{} x" = .error ⟨"trailing characters", "", 0⟩ :=
  ⟨c6_error_shape.1 "tru" "expected value" (by rfl),
   c6_error_shape.2.1 "{} x" (.dict []) (' ' :: 'x' :: []) "trailing characters"
     (by rfl) (by rfl)⟩

/-- Claim C8 — determinism: the result of decoding an input depends only
on that input text, not on its position in a sequence of calls nor on any
other calls made before or after it. -/
theorem c8_determinism :
    ∀ (pre1 pre2 post1 post2 : List String) (s : String),
      (decodeAll (pre1 ++ s :: post1)).get? pre1.length
        = (decodeAll (pre2 ++ s :: post2)).get? pre2.length := by
  intro pre1 pre2 post1 post2 s
  rw [decodeAll_get, decodeAll_get]

/-- Claim C9 — scalar construction is total: every scalar visitor method
returns a constructed value for every input and every error type, so its
error branch is unreachable and a scalar event can never be the source of
a decode failure. -/
theorem c9_scalar_totality :
    ∀ (ε : Type) (b : Bool) (v : Int) (u : Nat) (f t : String),
      (visit_unit : Except ε PyObj) = .ok .none
      ∧ (visit_bool b : Except ε PyObj) = .ok (.bool b)
      ∧ (visit_i64 v : Except ε PyObj) = .ok (.int v)
      ∧ (visit_u64 u : Except ε PyObj) = .ok (.int u)
      ∧ (visit_f64 f : Except ε PyObj) = .ok (.float f)
      ∧ (visit_str t : Except ε PyObj) = .ok (.str t)
      ∧ (visit_borrowed_str t : Except ε PyObj) = .ok (.str t) :=
  fun _ _ _ _ _ _ => ⟨rfl, rfl, rfl, rfl, rfl, rfl, rfl⟩

/-- Claim C10 — borrowed and owned string events are equivalent:
`visit_borrowed_str` and `visit_str` build the same host value for the
same text, so a string with escapes decodes equal to the unescaped
string denoting the same text. -/
theorem c10_borrowed_owned_equiv :
    (∀ (ε : Type) (t : String),
        (visit_borrowed_str t : Except ε PyObj) = visit_str t)
  ∧ deserialize "\"\\u0061\"" = deserialize "\"a\""
  ∧ deserialize "\"a\"" = .ok (.str "a")
  ∧ deserialize "\"line\\n\"" = .ok (.str "line\n") :=
  ⟨fun _ _ => rfl, rfl, rfl, rfl⟩

end Decode
